import Mathlib

set_option maxRecDepth 100000
set_option maxHeartbeats 4000000

/-!
Shallow embedding of the fixed-point math core of the balancer-sdk
repository (src/dist/index.js), together with theorems settling the
frozen claims about its specification.

Embedding conventions:
* JavaScript `bigint` values are modelled as `Int`.  JS `bigint`
  division `/` truncates toward zero and is modelled by `Int.tdiv`;
  JS `%` keeps the sign of the dividend and is modelled by `Int.tmod`.
* `_require(cond, msg)` (which throws on a false condition) and every
  other JS `throw` are modelled by returning `Except.error` with the
  corresponding error kind; fallible functions return
  `Except BalError Int`.
* A JS `RangeError` raised by the bigint primitives themselves
  (division by zero `a / 0n`, or `10n ** e` with a negative exponent)
  is modelled by the error kind `jsRangeError`.  Divisions whose
  divisor is a nonzero numeric literal in the source (`ONE_18`,
  `ONE_20`, `ONE_36`, `100`, `2` .. `15`) cannot raise it and are
  modelled by plain `Int.tdiv`.
* Decimal-string parsing (`parseFixed`) happens upstream of the math
  core; pool snapshots are modelled carrying the already-parsed
  integers, and optional (possibly `undefined`) fields are `Option`s.
-/

/-- Error kinds raised by the math core (Errors.* strings passed to
`_require`, `BalancerErrorCode` members, and JS `RangeError`). -/
inductive BalError where
  | addOverflow
  | subOverflow
  | mulOverflow
  | zeroDivision
  | divInternal
  | xOutOfBounds
  | yOutOfBounds
  | productOutOfBounds
  | invalidExponent
  | stableInvariantDidntConverge
  | inputLengthMismatch
  | missingDecimals
  | missingAmp
  | missingPriceRate
  | jsRangeError
  deriving Repr, DecidableEq

/-- `const ONE$1 = BigInt('1000000000000000000')` (18 decimal places). -/
def ONE : Int := 1000000000000000000

/-- `const BZERO = BigInt(0)`. -/
def BZERO : Int := 0

/-- `const BONE = BigInt(1)`. -/
def BONE : Int := 1

/-- `const AMP_PRECISION = BigInt(1e3)`. -/
def AMP_PRECISION : Int := 1000

/-- Raw JS bigint division `a / b`: `RangeError` when the divisor is
zero, truncation toward zero otherwise. -/
def jsDiv (a b : Int) : Except BalError Int :=
  if b = 0 then .error .jsRangeError else .ok (a.tdiv b)

/-- `_computeScalingFactor(tokenDecimals)`: computes
`ONE$1 * 10n ** (18n - tokenDecimals)`.  When `tokenDecimals > 18` the
exponent is negative and the JS `**` primitive throws a `RangeError`
("Exponent must be non-negative"), so no value is returned. -/
def _computeScalingFactor (tokenDecimals : Int) : Except BalError Int :=
  let decimalsDifference := 18 - tokenDecimals
  if decimalsDifference < 0 then .error .jsRangeError
  else .ok (ONE * 10 ^ decimalsDifference.toNat)

namespace SolidityMaths

/-- `SolidityMaths.add(a, b)` with its signed overflow check. -/
def add (a b : Int) : Except BalError Int :=
  let c := a + b
  if (b ≥ 0 ∧ c ≥ a) ∨ (b < 0 ∧ c < a) then .ok c else .error .addOverflow

/-- `SolidityMaths.sub(a, b)`: requires `b <= a`. -/
def sub (a b : Int) : Except BalError Int :=
  if b ≤ a then .ok (a - b) else .error .subOverflow

/-- `SolidityMaths.mul(a, b)` with the inverse-division overflow check. -/
def mul (a b : Int) : Except BalError Int :=
  let c := a * b
  if a = BZERO ∨ c.tdiv a = b then .ok c else .error .mulOverflow

/-- `SolidityMaths.divDown(a, b)`: plain truncating division, requires
`b != 0`. -/
def divDown (a b : Int) : Except BalError Int :=
  if b = BZERO then .error .zeroDivision else .ok (a.tdiv b)

/-- `SolidityMaths.divUp(a, b)`: rounding-up division
`BONE + (a - BONE) / b` for `a != 0`, requires `b != 0`. -/
def divUp (a b : Int) : Except BalError Int :=
  if b = BZERO then .error .zeroDivision
  else if a = BZERO then .ok BZERO
  else .ok (BONE + (a - BONE).tdiv b)

/-- `SolidityMaths.div(a, b, roundUp)`: dispatches on the rounding
flag. -/
def div (a b : Int) (roundUp : Bool) : Except BalError Int :=
  if roundUp then divUp a b else divDown a b

/-- `SolidityMaths.mulUpFixed(a, b)`: overflow-checked fixed-point
multiplication rounding up, `(product - BONE) / ONE + BONE` for a
nonzero product. -/
def mulUpFixed (a b : Int) : Except BalError Int :=
  let product := a * b
  if a = BZERO ∨ product.tdiv a = b then
    if product = BZERO then .ok BZERO
    else .ok ((product - BONE).tdiv ONE + BONE)
  else .error .mulOverflow

/-- `SolidityMaths.mulDownFixed(a, b)`: overflow-checked fixed-point
multiplication rounding down, `product / ONE`. -/
def mulDownFixed (a b : Int) : Except BalError Int :=
  let product := a * b
  if a = BZERO ∨ product.tdiv a = b then .ok (product.tdiv ONE)
  else .error .mulOverflow

/-- `SolidityMaths.divDownFixed(a, b)`: `(a * ONE) / b` with zero checks
(the DIV_INTERNAL require is commented out in the source). -/
def divDownFixed (a b : Int) : Except BalError Int :=
  if b = BZERO then .error .zeroDivision
  else if a = BZERO then .ok BZERO
  else
    let aInflated := a * ONE
    .ok (aInflated.tdiv b)

/-- `SolidityMaths.divUpFixed(a, b)`: `(a * ONE - BONE) / b + BONE` with
the `aInflated / a == ONE` DIV_INTERNAL overflow check. -/
def divUpFixed (a b : Int) : Except BalError Int :=
  if b = BZERO then .error .zeroDivision
  else if a = BZERO then .ok BZERO
  else
    let aInflated := a * ONE
    if aInflated.tdiv a = ONE then .ok ((aInflated - BONE).tdiv b + BONE)
    else .error .divInternal

/-- `SolidityMaths.complementFixed(x)`. -/
def complementFixed (x : Int) : Int :=
  if x < ONE then ONE - x else BZERO

/-- `SolidityMaths.MAX_POW_RELATIVE_ERROR = BigInt(10000)`. -/
def MAX_POW_RELATIVE_ERROR : Int := 10000

end SolidityMaths

/-- `_upscale(amount, scalingFactor)` is `mulDownFixed`. -/
def _upscale (amount scalingFactor : Int) : Except BalError Int :=
  SolidityMaths.mulDownFixed amount scalingFactor

namespace LogExpMath

/-- `LogExpMath.ONE_18`. -/
def ONE_18 : Int := 1000000000000000000

/-- `LogExpMath.ONE_20`. -/
def ONE_20 : Int := 100000000000000000000

/-- `LogExpMath.ONE_36`. -/
def ONE_36 : Int := 1000000000000000000000000000000000000

/-- `LogExpMath.MAX_NATURAL_EXPONENT` (130 fixed-point). -/
def MAX_NATURAL_EXPONENT : Int := 130000000000000000000

/-- `LogExpMath.MIN_NATURAL_EXPONENT` (-41 fixed-point). -/
def MIN_NATURAL_EXPONENT : Int := -41000000000000000000

/-- `LogExpMath.LN_36_LOWER_BOUND = ONE_18 - 1e17`. -/
def LN_36_LOWER_BOUND : Int := ONE_18 - 100000000000000000

/-- `LogExpMath.LN_36_UPPER_BOUND = ONE_18 + 1e17`. -/
def LN_36_UPPER_BOUND : Int := ONE_18 + 100000000000000000

/-- `LogExpMath.MILD_EXPONENT_BOUND = 2n ** 254n / ONE_20`. -/
def MILD_EXPONENT_BOUND : Int := ((2 : Int) ^ 254).tdiv ONE_20

/-- The signed-256-bit bound `x` is checked against in `pow`
(`2^255`, written as a decimal literal in the source). -/
def X_BOUND : Int :=
  57896044618658097711785492504343953926634992332820282019728792003956564819968

/-- Precomputed constant `x0 = 2^7` (18 decimals). -/
def x0 : Int := 128000000000000000000

/-- Precomputed constant `a0 = e^x0` (no decimals). -/
def a0 : Int := 38877084059945950922200000000000000000000000000000000000

/-- Precomputed constant `x1 = 2^6` (18 decimals). -/
def x1 : Int := 64000000000000000000

/-- Precomputed constant `a1 = e^x1` (no decimals). -/
def a1 : Int := 6235149080811616882910000000

/-- Precomputed constant `x2 = 2^5` (20 decimals). -/
def x2 : Int := 3200000000000000000000

/-- Precomputed constant `a2 = e^x2` (20 decimals). -/
def a2 : Int := 7896296018268069516100000000000000

/-- Precomputed constant `x3 = 2^4` (20 decimals). -/
def x3 : Int := 1600000000000000000000

/-- Precomputed constant `a3 = e^x3` (20 decimals). -/
def a3 : Int := 888611052050787263676000000

/-- Precomputed constant `x4 = 2^3` (20 decimals). -/
def x4 : Int := 800000000000000000000

/-- Precomputed constant `a4 = e^x4` (20 decimals). -/
def a4 : Int := 298095798704172827474000

/-- Precomputed constant `x5 = 2^2` (20 decimals). -/
def x5 : Int := 400000000000000000000

/-- Precomputed constant `a5 = e^x5` (20 decimals). -/
def a5 : Int := 5459815003314423907810

/-- Precomputed constant `x6 = 2^1` (20 decimals). -/
def x6 : Int := 200000000000000000000

/-- Precomputed constant `a6 = e^x6` (20 decimals). -/
def a6 : Int := 738905609893065022723

/-- Precomputed constant `x7 = 2^0` (20 decimals). -/
def x7 : Int := 100000000000000000000

/-- Precomputed constant `a7 = e^x7` (20 decimals). -/
def a7 : Int := 271828182845904523536

/-- Precomputed constant `x8 = 2^-1` (20 decimals). -/
def x8 : Int := 50000000000000000000

/-- Precomputed constant `a8 = e^x8` (20 decimals). -/
def a8 : Int := 164872127070012814685

/-- Precomputed constant `x9 = 2^-2` (20 decimals). -/
def x9 : Int := 25000000000000000000

/-- Precomputed constant `a9 = e^x9` (20 decimals). -/
def a9 : Int := 128402541668774148407

/-- Precomputed constant `x10 = 2^-3` (20 decimals). -/
def x10 : Int := 12500000000000000000

/-- Precomputed constant `a10 = e^x10` (20 decimals). -/
def a10 : Int := 113314845306682631683

/-- Precomputed constant `x11 = 2^-4` (20 decimals). -/
def x11 : Int := 6250000000000000000

/-- Precomputed constant `a11 = e^x11` (20 decimals). -/
def a11 : Int := 106449445891785942956

/-- One `if (x >= xn) { x -= xn; product = product * an / ONE_20 }`
block of `exp`'s power-of-two decomposition, on the state
`(x, product)`. -/
def expFactor (xn an : Int) (st : Int × Int) : Int × Int :=
  if st.1 ≥ xn then (st.1 - xn, (st.2 * an).tdiv ONE_20) else st

/-- One `term = term * x / ONE_20 / n; seriesSum += term` block of
`exp`'s Taylor series, on the state `(term, seriesSum)`. -/
def taylorTerm (x n : Int) (st : Int × Int) : Int × Int :=
  let term := ((st.1 * x).tdiv ONE_20).tdiv n
  (term, st.2 + term)

/-- The leading `firstAN` selection of `exp` (`x0` / `x1` blocks, which
store `a0` / `a1` as plain integers), on the state `(x, firstAN)`. -/
def expFirst (x : Int) : Int × Int :=
  if x ≥ x0 then (x - x0, a0)
  else if x ≥ x1 then (x - x1, a1)
  else (x, 1)

/-- The start of `exp`'s Taylor accumulation:
`seriesSum = ONE_20; term = x; seriesSum += term`, as the state
`(term, seriesSum)`. -/
def taylorInit (x : Int) : Int × Int := (x, ONE_20 + x)

/-- Body of `LogExpMath.exp` for a nonnegative argument (the source's
recursive negative case is handled in `exp` below).  The sequential
mutation of `x`, `product`, `term` and `seriesSum` in the source is
threaded through the `expFirst` / `expFactor` / `taylorInit` /
`taylorTerm` state helpers, one per source block, in source order. -/
def expPos (x : Int) : Int :=
  let p := expFirst x
  let firstAN := p.2
  let st := (p.1 * 100, ONE_20)
  let st := expFactor x2 a2 st
  let st := expFactor x3 a3 st
  let st := expFactor x4 a4 st
  let st := expFactor x5 a5 st
  let st := expFactor x6 a6 st
  let st := expFactor x7 a7 st
  let st := expFactor x8 a8 st
  let st := expFactor x9 a9 st
  let xr := st.1
  let product := st.2
  let ts := taylorInit xr
  let ts := taylorTerm xr 2 ts
  let ts := taylorTerm xr 3 ts
  let ts := taylorTerm xr 4 ts
  let ts := taylorTerm xr 5 ts
  let ts := taylorTerm xr 6 ts
  let ts := taylorTerm xr 7 ts
  let ts := taylorTerm xr 8 ts
  let ts := taylorTerm xr 9 ts
  let ts := taylorTerm xr 10 ts
  let ts := taylorTerm xr 11 ts
  let ts := taylorTerm xr 12 ts
  let seriesSum := ts.2
  (((product * seriesSum).tdiv ONE_20) * firstAN).tdiv 100

/-- `LogExpMath.exp(x)`: bounds check, then for negative `x` the source
returns `ONE_18 * ONE_18 / exp(-1n * x)`.  That single recursive call
is inlined as `expPos (-1 * x)`: the flipped argument is positive and
within bounds, so the recursive call re-enters the nonnegative
straight-line path.  The JS division by the recursive result is a raw
bigint division, modelled by `jsDiv`. -/
def exp (x : Int) : Except BalError Int :=
  if x ≥ MIN_NATURAL_EXPONENT ∧ x ≤ MAX_NATURAL_EXPONENT then
    if x < 0 then jsDiv (ONE_18 * ONE_18) (expPos (-1 * x))
    else .ok (expPos x)
  else .error .invalidExponent

/-- `LogExpMath._ln_36(x)`: 36-decimal Taylor series for `ln` near one.
The divisor `x + ONE_36` of the `z` computation is nonzero whenever the
caller's `LN_36` bounds guard holds, which is the only way this
function is reached. -/
def _ln_36 (xIn : Int) : Int :=
  let x := xIn * ONE_18
  let z := ((x - ONE_36) * ONE_36).tdiv (x + ONE_36)
  let z_squared := (z * z).tdiv ONE_36
  let num := z
  let seriesSum := num
  let num := (num * z_squared).tdiv ONE_36
  let seriesSum := seriesSum + num.tdiv 3
  let num := (num * z_squared).tdiv ONE_36
  let seriesSum := seriesSum + num.tdiv 5
  let num := (num * z_squared).tdiv ONE_36
  let seriesSum := seriesSum + num.tdiv 7
  let num := (num * z_squared).tdiv ONE_36
  let seriesSum := seriesSum + num.tdiv 9
  let num := (num * z_squared).tdiv ONE_36
  let seriesSum := seriesSum + num.tdiv 11
  let num := (num * z_squared).tdiv ONE_36
  let seriesSum := seriesSum + num.tdiv 13
  let num := (num * z_squared).tdiv ONE_36
  let seriesSum := seriesSum + num.tdiv 15
  seriesSum * 2

/-- One `if (a >= an) { a = a * ONE_20 / an; sum += xn }` block of
`_ln`'s decomposition, on the state `(a, sum)`. -/
def lnFactor (xn an : Int) (st : Int × Int) : Int × Int :=
  if st.1 ≥ an then ((st.1 * ONE_20).tdiv an, st.2 + xn) else st

/-- Body of `LogExpMath._ln` for an argument `>= ONE_18` (the source's
recursive small-argument case is handled in `_ln` below).  The `a0` and
`a1` blocks use plain integer division; subsequent blocks are threaded
through `lnFactor`, one per source block, in source order. -/
def lnPos (aIn : Int) : Int :=
  let p :=
    if aIn ≥ a0 * ONE_18 then (aIn.tdiv a0, x0)
    else (aIn, 0)
  let p :=
    if p.1 ≥ a1 * ONE_18 then (p.1.tdiv a1, p.2 + x1)
    else p
  let st := (p.1 * 100, p.2 * 100)
  let st := lnFactor x2 a2 st
  let st := lnFactor x3 a3 st
  let st := lnFactor x4 a4 st
  let st := lnFactor x5 a5 st
  let st := lnFactor x6 a6 st
  let st := lnFactor x7 a7 st
  let st := lnFactor x8 a8 st
  let st := lnFactor x9 a9 st
  let st := lnFactor x10 a10 st
  let st := lnFactor x11 a11 st
  let a := st.1
  let sum := st.2
  let z := ((a - ONE_20) * ONE_20).tdiv (a + ONE_20)
  let z_squared := (z * z).tdiv ONE_20
  let num := z
  let seriesSum := num
  let num := (num * z_squared).tdiv ONE_20
  let seriesSum := seriesSum + num.tdiv 3
  let num := (num * z_squared).tdiv ONE_20
  let seriesSum := seriesSum + num.tdiv 5
  let num := (num * z_squared).tdiv ONE_20
  let seriesSum := seriesSum + num.tdiv 7
  let num := (num * z_squared).tdiv ONE_20
  let seriesSum := seriesSum + num.tdiv 9
  let num := (num * z_squared).tdiv ONE_20
  let seriesSum := seriesSum + num.tdiv 11
  let seriesSum := seriesSum * 2
  (sum + seriesSum).tdiv 100

/-- `LogExpMath._ln(a)`: for `a < ONE_18` the source returns
`-1n * _ln(ONE_18 * ONE_18 / a)`.  For every `a >= 1` that flipped
argument is `>= ONE_18`, so the single recursive call lands in the
large-argument branch and is inlined as `lnPos`; the theorems below
only reach `_ln` at such arguments (inside `pow` after the `x == 0`
guard, with nonnegative `x`). -/
def _ln (a : Int) : Int :=
  if a < ONE_18 then (-1) * lnPos ((ONE_18 * ONE_18).tdiv a)
  else lnPos a

/-- `LogExpMath.pow(x, y)`: special cases `y == 0` and `x == 0`,
bounds checks on `x` and `y`, computation of `y * ln(x)` via the
36-decimal path when `x` is near one, final bounds check and `exp`. -/
def pow (x y : Int) : Except BalError Int :=
  if y = BZERO then .ok ONE_18
  else if x = BZERO then .ok BZERO
  else if x < X_BOUND then
    if y < MILD_EXPONENT_BOUND then
      let logx_times_y :=
        if LN_36_LOWER_BOUND < x ∧ x < LN_36_UPPER_BOUND then
          let ln_36_x := _ln_36 x
          (ln_36_x.tdiv ONE_18) * y + ((ln_36_x.tmod ONE_18) * y).tdiv ONE_18
        else (_ln x) * y
      let l := logx_times_y.tdiv ONE_18
      if MIN_NATURAL_EXPONENT ≤ l ∧ l ≤ MAX_NATURAL_EXPONENT then exp l
      else .error .productOutOfBounds
    else .error .yOutOfBounds
  else .error .xOutOfBounds

end LogExpMath

namespace SolidityMaths

/-- `SolidityMaths.powUpFixed(x, y)`: `LogExpMath.pow` plus the
rounded-up relative error margin. -/
def powUpFixed (x y : Int) : Except BalError Int := do
  let raw ← LogExpMath.pow x y
  let m ← mulUpFixed raw MAX_POW_RELATIVE_ERROR
  let maxError ← add m BONE
  add raw maxError

end SolidityMaths

/-- Inner `P_D` loop of `_calculateInvariant` (`for j = 1; ...`):
`P_D = div(mul(mul(P_D, balances[j]), numTokens), invariant, roundUp)`
for each balance after the first.  The returned flag list records, in
execution order, the `roundUp` argument of every `SolidityMaths.div`
call performed (one per balance). -/
def pdLoop (numTokens : Int) (roundUp : Bool) (invariant : Int) :
    List Int → Int → Except BalError (Int × List Bool)
  | [], pd => .ok (pd, [])
  | bj :: rest, pd => do
    let m1 ← SolidityMaths.mul pd bj
    let m2 ← SolidityMaths.mul m1 numTokens
    let pd' ← SolidityMaths.div m2 invariant roundUp
    let r ← pdLoop numTokens roundUp invariant rest pd'
    .ok (r.1, roundUp :: r.2)

/-- One iteration of the `_calculateInvariant` loop body: recomputes
`P_D` via `pdLoop`, then updates the invariant estimate
`div(mul(mul(n, inv), inv) + div(mul(mul(ampTimesTotal, sum), P_D), AMP_PRECISION, roundUp),
     mul(n + 1, inv) + div(mul(ampTimesTotal - AMP_PRECISION, P_D), AMP_PRECISION, !roundUp),
     roundUp)`.
The second component records, in execution order, the `roundUp`
argument of every `SolidityMaths.div` call performed in the iteration
(note the source passes `!roundUp` for the denominator's
amp-precision division).  The JS loop reads `balances[0]` only after
the caller's `sum == 0` early return, so the list is nonempty at every
call site; `headD` supplies its head. -/
def invariantStepF (amp : Int) (balances : List Int) (sum : Int)
    (roundUp : Bool) (invariant : Int) : Except BalError (Int × List Bool) := do
  let numTokens : Int := balances.length
  let ampTimesTotal := amp * numTokens
  let pd0 := balances.headD 0 * numTokens
  let pdr ← pdLoop numTokens roundUp invariant balances.tail pd0
  let pD := pdr.1
  let t1 ← SolidityMaths.mul numTokens invariant
  let t2 ← SolidityMaths.mul t1 invariant
  let t3 ← SolidityMaths.mul ampTimesTotal sum
  let t4 ← SolidityMaths.mul t3 pD
  let t5 ← SolidityMaths.div t4 AMP_PRECISION roundUp
  let t6 ← SolidityMaths.mul (numTokens + 1) invariant
  let t7 ← SolidityMaths.mul (ampTimesTotal - AMP_PRECISION) pD
  let t8 ← SolidityMaths.div t7 AMP_PRECISION (!roundUp)
  let r ← SolidityMaths.div (t2 + t5) (t6 + t8) roundUp
  .ok (r, pdr.2 ++ [roundUp, !roundUp, roundUp])

/-- One iteration of the `_calculateInvariant` loop body (value only). -/
def invariantStep (amp : Int) (balances : List Int) (sum : Int)
    (roundUp : Bool) (invariant : Int) : Except BalError Int :=
  (invariantStepF amp balances sum roundUp invariant).map Prod.fst

/-- The early-exit convergence test of `_calculateInvariant`: the
source returns the new iterate when `invariant > prevInvariant` and
`invariant - prevInvariant <= 1`, or when `invariant <= prevInvariant`
and `prevInvariant - invariant <= 1`. -/
def convergedStep (prevInvariant invariant : Int) : Bool :=
  if invariant > prevInvariant then invariant - prevInvariant ≤ 1
  else prevInvariant - invariant ≤ 1

/-- The `for (let i = 0; i < 255; i++)` loop of `_calculateInvariant`,
with the remaining iteration budget as fuel: each pass runs one
`invariantStep`, returns the new iterate if `convergedStep` holds, and
otherwise continues; an exhausted budget throws
`STABLE_INVARIANT_DIDNT_CONVERGE`. -/
def invariantLoop (amp : Int) (balances : List Int) (sum : Int)
    (roundUp : Bool) : Nat → Int → Except BalError Int
  | 0, _ => .error .stableInvariantDidntConverge
  | fuel + 1, prevInvariant => do
    let invariant ← invariantStep amp balances sum roundUp prevInvariant
    if convergedStep prevInvariant invariant then .ok invariant
    else invariantLoop amp balances sum roundUp fuel invariant

/-- `_calculateInvariant(amp, balances, roundUp)`: sums the balances,
returns `BZERO` for a zero sum, and otherwise runs the 255-iteration
convergence loop starting from `invariant = sum`. -/
def _calculateInvariant (amp : Int) (balances : List Int)
    (roundUp : Bool) : Except BalError Int :=
  let sum := balances.foldl (· + ·) BZERO
  if sum = BZERO then .ok BZERO
  else invariantLoop amp balances sum roundUp 255 sum

/-- The sequence of iterates of the `_calculateInvariant` update:
`iterate 0 = sum` (the initial estimate) and `iterate (k+1)` applies
`invariantStep` to `iterate k`.  This is a specification-side device
used to state theorems about the loop; it is definitionally the
orbit of the loop body. -/
def invariantIterate (amp : Int) (balances : List Int) (sum : Int)
    (roundUp : Bool) : Nat → Except BalError Int
  | 0 => .ok sum
  | k + 1 => do
    let d ← invariantIterate amp balances sum roundUp k
    invariantStep amp balances sum roundUp d

/-- The `S` / `D_P` accumulation loop of `bptSpotPrice`
(`for i = 0; i < totalCoins; i++`, skipping `tokenIndexIn`), on the
state `(S, D_P)`; the `D_P` update divisor `totalCoins * balances[i]`
is a raw JS division, modelled by `jsDiv`. -/
def spotLoop (totalCoins d : Int) (tokenIndexIn : Nat) :
    List Int → Nat → Int × Int → Except BalError (Int × Int)
  | [], _, st => .ok st
  | b :: rest, i, st =>
    if i ≠ tokenIndexIn then do
      let dp ← jsDiv (st.2 * d) (totalCoins * b)
      spotLoop totalCoins d tokenIndexIn rest (i + 1) (st.1 + b, dp)
    else spotLoop totalCoins d tokenIndexIn rest (i + 1) st

/-- `bptSpotPrice(amp, balances, bptSupply, tokenIndexIn)`: the
marginal-price formula derived from the stable invariant.  The source
reads `balances[tokenIndexIn]`; every call site passes an index below
the list length, and `getD _ 0` supplies that element.  The source's
`partial_x` and `minus_partial_D` locals are named `px` and
`minusPartialD` here. -/
def bptSpotPrice (amp : Int) (balances : List Int) (bptSupply : Int)
    (tokenIndexIn : Nat) : Except BalError Int := do
  let totalCoins : Int := balances.length
  let d ← _calculateInvariant amp balances true
  let dp0 ← jsDiv d totalCoins
  let st ← spotLoop totalCoins d tokenIndexIn balances 0 (BZERO, dp0)
  let s := st.1
  let dp := st.2
  let x := balances.getD tokenIndexIn 0
  let alpha := amp * totalCoins
  let beta := alpha * s
  let gamma := AMP_PRECISION - alpha
  let px := 2 * alpha * x + beta + gamma * d
  let minusPartialD := dp * (totalCoins + 1) * AMP_PRECISION - gamma * x
  let q ← jsDiv (px * bptSupply) minusPartialD
  SolidityMaths.divUpFixed q d

/-- One pool token of a pool snapshot, carrying the already-parsed
integer forms of its fields: `decimals` is `none` when the snapshot
field is absent, `balance` is `parseFixed(token.balance, decimals)`,
and `priceRate` is `parseFixed(token.priceRate, 18)` (or `none` when
absent).  Addresses are modelled as naturals. -/
structure PoolToken where
  address : Nat
  decimals : Option Int
  balance : Int
  priceRate : Option Int
  deriving Repr, DecidableEq, Inhabited

/-- A pool snapshot as consumed by the price-impact calculators:
`amp` is `parseFixed(pool.amp, AMP_PRECISION)` (or `none` when the
field is absent) and `totalShares` is
`parseFixed(pool.totalShares, 18)`.  Fields the claimed functions
never read (swap fee, weights) are omitted. -/
structure Pool where
  address : Nat
  tokens : List PoolToken
  tokensList : List Nat
  amp : Option Int
  totalShares : Int
  deriving Repr, DecidableEq

/-- Result record of `parsePoolInfo` (the fields the price-impact
calculators consume). -/
structure ParsedPoolInfo where
  parsedTokens : List Nat
  parsedDecimals : List (Option Int)
  parsedBalances : List Int
  parsedPriceRates : List (Option Int)
  parsedAmp : Option Int
  parsedTotalShares : Int
  deriving Repr, DecidableEq

/-- `parsePoolInfo(pool)`.  The source maps `token.decimals` through
`token.decimals ? token.decimals.toString() : undefined`: a JS numeric
`0` is falsy, so an explicit zero-decimals entry also becomes
`undefined` (`none`).  Price rates and `amp` are modelled post-parse
(a stored rate parses to a truthy nonempty string, so no zero check
arises there). -/
def parsePoolInfo (pool : Pool) : ParsedPoolInfo :=
  { parsedTokens := pool.tokens.map (·.address)
    parsedDecimals := pool.tokens.map (fun t =>
      match t.decimals with
      | some d => if d = 0 then none else some d
      | none => none)
    parsedBalances := pool.tokens.map (·.balance)
    parsedPriceRates := pool.tokens.map (·.priceRate)
    parsedAmp := pool.amp
    parsedTotalShares := pool.totalShares }

/-- JS `array.map(v => { if (!v) throw e; return v })` over a list of
optional values: fails with `e` at the first missing entry, otherwise
returns the unwrapped list. -/
def requireAll (e : BalError) : List (Option Int) → Except BalError (List Int)
  | [] => .ok []
  | none :: _ => .error e
  | some v :: rest => do
    let r ← requireAll e rest
    .ok (v :: r)

/-- JS `Array.prototype.findIndex`: index of the first match, `-1` when
there is none. -/
def jsFindIndex (p : α → Bool) (l : List α) : Int :=
  match l.findIdx? p with
  | some i => (i : Int)
  | none => -1

/-- JS `Array.prototype.splice(i, 1)`: removes one element at index
`i`; a negative index counts from the end (clamped at the start), an
index at or past the end removes nothing. -/
def jsSpliceRemove (l : List α) (i : Int) : List α :=
  let n : Int := l.length
  let start : Nat := if i < 0 then (max (n + i) 0).toNat else (min i n).toNat
  l.take start ++ l.drop (start + 1)

/-- `StablePoolPriceImpact.bptZeroPriceImpact(pool, tokenAmounts)`:
length check, decimals check, amp check (the source throws
`MISSING_PRICE_RATE` — not `MISSING_AMP` — when `parsedAmp` is
absent), then sums `bptSpotPrice * upscaled amount / ONE` over the
tokens. -/
def stableBptZeroPriceImpact (pool : Pool) (tokenAmounts : List Int) :
    Except BalError Int :=
  if tokenAmounts.length ≠ pool.tokensList.length then .error .inputLengthMismatch
  else do
    let info := parsePoolInfo pool
    let decimals ← requireAll .missingDecimals info.parsedDecimals
    match info.parsedAmp with
    | none => .error .missingPriceRate
    | some parsedAmp => do
      let totalShares := info.parsedTotalShares
      let scalingFactors ← decimals.mapM _computeScalingFactor
      let balances ← (info.parsedBalances.zip scalingFactors).mapM
        (fun p => _upscale p.1 p.2)
      (List.range balances.length).foldlM (fun acc i => do
        let price ← bptSpotPrice parsedAmp balances totalShares i
        let scalingFactor ← _computeScalingFactor (decimals.getD i 0)
        let amountUpscaled ← _upscale (tokenAmounts.getD i 0) scalingFactor
        .ok (acc + (price * amountUpscaled).tdiv ONE)) BZERO

/-- `MetaStablePoolPriceImpact.bptZeroPriceImpact(pool, tokenAmounts)`:
like the stable variant (including the `MISSING_PRICE_RATE` throw for
a missing amp) but with a price-rate check, balances pre-multiplied by
the price rates, and each spot price multiplied by the token's price
rate.  The per-term scaling factor reads `pool.tokens[i].decimals`
directly; that field is present and nonzero whenever the earlier
decimals validation passed, and is modelled by `getD`. -/
def metaStableBptZeroPriceImpact (pool : Pool) (tokenAmounts : List Int) :
    Except BalError Int :=
  if tokenAmounts.length ≠ pool.tokensList.length then .error .inputLengthMismatch
  else do
    let info := parsePoolInfo pool
    let totalShares := info.parsedTotalShares
    let decimals ← requireAll .missingDecimals info.parsedDecimals
    let priceRates ← requireAll .missingPriceRate info.parsedPriceRates
    match info.parsedAmp with
    | none => .error .missingPriceRate
    | some parsedAmp => do
      let scalingFactors ← decimals.mapM _computeScalingFactor
      let balances ← (info.parsedBalances.zip scalingFactors).mapM
        (fun p => _upscale p.1 p.2)
      let balancesScaled ← (balances.zip priceRates).mapM
        (fun p => SolidityMaths.mulDownFixed p.1 p.2)
      (List.range balances.length).foldlM (fun acc i => do
        let price0 ← bptSpotPrice parsedAmp balancesScaled totalShares i
        let price := (price0 * priceRates.getD i 0).tdiv ONE
        let scalingFactor ← _computeScalingFactor
          ((pool.tokens.getD i default).decimals.getD 0)
        let amountUpscaled ← _upscale (tokenAmounts.getD i 0) scalingFactor
        .ok (acc + (price * amountUpscaled).tdiv ONE)) BZERO

/-- `StablePhantomPriceImpact.bptZeroPriceImpact(pool, tokenAmounts)`:
expects one amount per non-BPT token (`tokensList.length - 1`, in JS
integer arithmetic), finds the pool's own BPT in the token list,
validates decimals / price rates / amp (again throwing
`MISSING_PRICE_RATE` for a missing amp), splices the BPT out of the
token and balance lists, rescales by price rates (indexing the
unspliced rate list, as the source does), and sums the spot-price
terms over the spliced token list. -/
def phantomBptZeroPriceImpact (pool : Pool) (tokenAmounts : List Int) :
    Except BalError Int :=
  if (tokenAmounts.length : Int) ≠ (pool.tokensList.length : Int) - 1 then
    .error .inputLengthMismatch
  else do
    let tokensList := pool.tokensList
    let bptIndex := jsFindIndex (fun token => token = pool.address) tokensList
    let info := parsePoolInfo pool
    let decimals ← requireAll .missingDecimals info.parsedDecimals
    let priceRates ← requireAll .missingPriceRate info.parsedPriceRates
    match info.parsedAmp with
    | none => .error .missingPriceRate
    | some parsedAmp => do
      let totalShares := info.parsedTotalShares
      let tokensListSpliced := jsSpliceRemove tokensList bptIndex
      let scalingFactors ← decimals.mapM _computeScalingFactor
      let balances ← (info.parsedBalances.zip scalingFactors).mapM
        (fun p => _upscale p.1 p.2)
      if (tokenAmounts.length : Int) ≠ (tokensListSpliced.length : Int) then
        .error .inputLengthMismatch
      else do
        let balancesSpliced := jsSpliceRemove balances bptIndex
        let balancesScaled ← (balancesSpliced.zip priceRates).mapM
          (fun p => SolidityMaths.mulDownFixed p.1 p.2)
        (List.range tokensListSpliced.length).foldlM (fun acc i => do
          let price0 ← bptSpotPrice parsedAmp balancesScaled totalShares i
          let price := (price0 * priceRates.getD i 0).tdiv ONE
          let scalingFactor ← _computeScalingFactor (decimals.getD i 0)
          let amountUpscaled ← _upscale (tokenAmounts.getD i 0) scalingFactor
          .ok (acc + (price * amountUpscaled).tdiv ONE)) BZERO

/-! Helper lemmas about the arithmetic layer.  Over true (unbounded)
integers the JS overflow guards can never fire, so the checked
operations are total; these lemmas compute their values. -/

theorem SolidityMaths.add_ok (a b : Int) : SolidityMaths.add a b = .ok (a + b) := by
  unfold SolidityMaths.add
  rcases le_or_lt 0 b with hb | hb
  · rw [if_pos (Or.inl ⟨hb, by omega⟩)]
  · rw [if_pos (Or.inr ⟨hb, by omega⟩)]

theorem SolidityMaths.mul_ok (a b : Int) : SolidityMaths.mul a b = .ok (a * b) := by
  simp only [SolidityMaths.mul, BZERO]
  rcases eq_or_ne a 0 with ha | ha
  · rw [if_pos (Or.inl ha)]
  · rw [if_pos (Or.inr (Int.mul_tdiv_cancel_left b ha))]

theorem SolidityMaths.mulDownFixed_ok (a b : Int) :
    SolidityMaths.mulDownFixed a b = .ok ((a * b).tdiv ONE) := by
  simp only [SolidityMaths.mulDownFixed, BZERO]
  rcases eq_or_ne a 0 with ha | ha
  · rw [if_pos (Or.inl ha)]
  · rw [if_pos (Or.inr (Int.mul_tdiv_cancel_left b ha))]

theorem SolidityMaths.mulUpFixed_ok (a b : Int) :
    SolidityMaths.mulUpFixed a b =
      .ok (if a * b = 0 then 0 else (a * b - 1).tdiv ONE + 1) := by
  simp only [SolidityMaths.mulUpFixed, BZERO, BONE]
  rcases eq_or_ne a 0 with ha | ha
  · rw [if_pos (Or.inl ha)]
    simp [ha]
  · rw [if_pos (Or.inr (Int.mul_tdiv_cancel_left b ha))]
    split_ifs <;> rfl

theorem SolidityMaths.divDownFixed_ok (a b : Int) (hb : b ≠ 0) :
    SolidityMaths.divDownFixed a b =
      .ok (if a = 0 then 0 else (a * ONE).tdiv b) := by
  simp only [SolidityMaths.divDownFixed, BZERO]
  rw [if_neg hb]
  split_ifs <;> rfl

theorem SolidityMaths.divUpFixed_ok (a b : Int) (hb : b ≠ 0) :
    SolidityMaths.divUpFixed a b =
      .ok (if a = 0 then 0 else (a * ONE - 1).tdiv b + 1) := by
  simp only [SolidityMaths.divUpFixed, BZERO, BONE]
  rw [if_neg hb]
  rcases eq_or_ne a 0 with ha | ha
  · simp [ha]
  · rw [if_neg ha, if_neg ha, if_pos (Int.mul_tdiv_cancel_left ONE ha)]

/-- C5: for all non-negative `a` and `b` with `b ≠ 0`, the fixed-point
divisions satisfy `divUp(a,b) ≥ divDown(a,b)` and
`divUp(a,b) − divDown(a,b) ≤ 1`. -/
theorem divUpFixed_ge_divDownFixed (a b : Int)
    (ha : 0 ≤ a) (hb : 0 ≤ b) (hbne : b ≠ 0) :
    ∃ u d, SolidityMaths.divUpFixed a b = .ok u ∧
      SolidityMaths.divDownFixed a b = .ok d ∧ d ≤ u ∧ u - d ≤ 1 := by
  rcases eq_or_ne a 0 with h0 | h0
  · refine ⟨0, 0, ?_, ?_, le_refl 0, by omega⟩
    · rw [SolidityMaths.divUpFixed_ok a b hbne, if_pos h0]
    · rw [SolidityMaths.divDownFixed_ok a b hbne, if_pos h0]
  · have hbpos : 0 < b := lt_of_le_of_ne hb (Ne.symm hbne)
    have hapos : 0 < a := lt_of_le_of_ne ha (Ne.symm h0)
    have hN : (1 : Int) ≤ a * ONE := by
      have h2 : (1 : Int) ≤ ONE := by norm_num [ONE]
      nlinarith
    refine ⟨(a * ONE - 1).tdiv b + 1, (a * ONE).tdiv b, ?_, ?_, ?_, ?_⟩
    · rw [SolidityMaths.divUpFixed_ok a b hbne, if_neg h0]
    · rw [SolidityMaths.divDownFixed_ok a b hbne, if_neg h0]
    · rw [Int.tdiv_eq_ediv (by omega) (le_of_lt hbpos),
        Int.tdiv_eq_ediv (by omega) (le_of_lt hbpos)]
      have h1 : a * ONE ≤ (a * ONE - 1) + 1 * b := by omega
      calc a * ONE / b ≤ ((a * ONE - 1) + 1 * b) / b := Int.ediv_le_ediv hbpos h1
        _ = (a * ONE - 1) / b + 1 := Int.add_mul_ediv_right _ _ hbne
    · rw [Int.tdiv_eq_ediv (by omega) (le_of_lt hbpos),
        Int.tdiv_eq_ediv (by omega) (le_of_lt hbpos)]
      have := Int.ediv_le_ediv hbpos (show a * ONE - 1 ≤ a * ONE by omega)
      omega

/-- Witness for C5 at `a = 5·10^17`, `b = 3·10^18` (so that the two
roundings actually differ by one). -/
theorem divUpFixed_ge_divDownFixed_witness :
    ∃ u d, SolidityMaths.divUpFixed 500000000000000000 3000000000000000000 = .ok u ∧
      SolidityMaths.divDownFixed 500000000000000000 3000000000000000000 = .ok d ∧
      d ≤ u ∧ u - d ≤ 1 :=
  divUpFixed_ge_divDownFixed 500000000000000000 3000000000000000000
    (by decide) (by decide) (by decide)

/-- C9: the DIV_INTERNAL overflow check of `divUpFixed` always passes
over arbitrary-precision integers (`(a * ONE) / a == ONE` whenever
`a ≠ 0`), so the `DivInternal` error branch is unreachable and the
only failure of `divUpFixed` is `ZeroDivision` when `b = 0`. -/
theorem divUpFixed_no_divInternal (a b : Int) :
    (a ≠ 0 → (a * ONE).tdiv a = ONE) ∧
    (b ≠ 0 → ∃ v, SolidityMaths.divUpFixed a b = .ok v) ∧
    (b = 0 → SolidityMaths.divUpFixed a b = .error .zeroDivision) ∧
    SolidityMaths.divUpFixed a b ≠ .error .divInternal := by
  refine ⟨fun ha => Int.mul_tdiv_cancel_left ONE ha, ?_, ?_, ?_⟩
  · intro hb
    rw [SolidityMaths.divUpFixed_ok a b hb]
    exact ⟨_, rfl⟩
  · intro hb
    simp only [SolidityMaths.divUpFixed, BZERO]
    rw [if_pos hb]
  · rcases eq_or_ne b 0 with hb | hb
    · simp only [SolidityMaths.divUpFixed, BZERO]
      rw [if_pos hb]
      simp
    · rw [SolidityMaths.divUpFixed_ok a b hb]
      simp

/-- Witness for C9 at `a = 7`, `b = 4`. -/
theorem divUpFixed_no_divInternal_witness :
    ((7 : Int) ≠ 0 → ((7 : Int) * ONE).tdiv 7 = ONE) ∧
    ((4 : Int) ≠ 0 → ∃ v, SolidityMaths.divUpFixed 7 4 = .ok v) ∧
    ((4 : Int) = 0 → SolidityMaths.divUpFixed 7 4 = .error .zeroDivision) ∧
    SolidityMaths.divUpFixed 7 4 ≠ .error .divInternal :=
  divUpFixed_no_divInternal 7 4

/-- C8: `_computeScalingFactor(d)` returns `ONE * 10^(18 − d)` only
when `d ≤ 18`; for every `d > 18` it fails (the negative bigint
exponent raises a `RangeError`), so no scaling factor is ever
returned. -/
theorem computeScalingFactor_fails_above_18 (d : Int) :
    (18 < d → ∀ v, _computeScalingFactor d ≠ .ok v) ∧
    (d ≤ 18 → _computeScalingFactor d = .ok (ONE * 10 ^ (18 - d).toNat)) := by
  constructor
  · intro hd v
    simp only [_computeScalingFactor]
    rw [if_pos (by omega)]
    simp
  · intro hd
    simp only [_computeScalingFactor]
    rw [if_neg (by omega)]

/-- Witness for C8 at `d = 19` (fails) and `d = 6` (returns
`ONE * 10^12`). -/
theorem computeScalingFactor_fails_above_18_witness :
    (∀ v, _computeScalingFactor 19 ≠ .ok v) ∧
    _computeScalingFactor 6 = .ok (ONE * 10 ^ 12) :=
  ⟨(computeScalingFactor_fails_above_18 19).1 (by decide),
   (computeScalingFactor_fails_above_18 6).2 (by decide)⟩

/-- C10: `pow(x, 0)` returns `ONE` for every `x` whatsoever — the
`y == 0` special case is evaluated before the `x == 0` case and before
any bounds check, so no bounds error can be raised when `y = 0`. -/
theorem pow_zero_exponent_total (x : Int) :
    LogExpMath.pow x 0 = .ok LogExpMath.ONE_18 := rfl

/-- C6: the power function boundary identities: `pow(x, 0) = ONE` for
every valid `x > 0`; `pow(0, y) = 0` for every `y > 0`; and
`pow(ONE, y) = ONE` for every valid `y` (nonnegative and below
`MILD_EXPONENT_BOUND`). -/
theorem pow_boundary_identities :
    (∀ x : Int, 0 < x → LogExpMath.pow x 0 = .ok LogExpMath.ONE_18) ∧
    (∀ y : Int, 0 < y → LogExpMath.pow 0 y = .ok BZERO) ∧
    (∀ y : Int, 0 ≤ y → y < LogExpMath.MILD_EXPONENT_BOUND →
      LogExpMath.pow LogExpMath.ONE_18 y = .ok LogExpMath.ONE_18) := by
  refine ⟨fun x _ => rfl, ?_, ?_⟩
  · intro y hy
    have hyB : ¬(y = BZERO) := by simp only [BZERO]; omega
    simp only [LogExpMath.pow]
    rw [if_neg hyB, if_pos (show (0 : Int) = BZERO from rfl)]
  · intro y hy0 hyb
    rcases eq_or_ne y 0 with hy | hy
    · subst hy; rfl
    · have hyB : ¬(y = BZERO) := by simp only [BZERO]; omega
      simp only [LogExpMath.pow]
      rw [if_neg hyB,
        if_neg (show ¬(LogExpMath.ONE_18 = BZERO) by decide),
        if_pos (show LogExpMath.ONE_18 < LogExpMath.X_BOUND by decide),
        if_pos hyb,
        if_pos (show LogExpMath.LN_36_LOWER_BOUND < LogExpMath.ONE_18 ∧
          LogExpMath.ONE_18 < LogExpMath.LN_36_UPPER_BOUND by decide),
        show LogExpMath._ln_36 LogExpMath.ONE_18 = 0 by decide]
      simp only [Int.zero_tdiv, Int.zero_tmod, zero_mul, add_zero]
      rw [if_pos (show LogExpMath.MIN_NATURAL_EXPONENT ≤ (0:Int) ∧
        (0:Int) ≤ LogExpMath.MAX_NATURAL_EXPONENT by decide)]
      rfl

/-- Witness for C6 at `x = 5`, `y = 5`, and `y = 777`. -/
theorem pow_boundary_identities_witness :
    LogExpMath.pow 5 0 = .ok LogExpMath.ONE_18 ∧
    LogExpMath.pow 0 5 = .ok BZERO ∧
    LogExpMath.pow LogExpMath.ONE_18 777 = .ok LogExpMath.ONE_18 :=
  ⟨pow_boundary_identities.1 5 (by decide),
   pow_boundary_identities.2.1 5 (by decide),
   pow_boundary_identities.2.2 777 (by decide) (by decide)⟩

namespace LogExpMath

theorem expFirst_nonneg (x : Int) (hx : 0 ≤ x) :
    0 ≤ (expFirst x).1 ∧ 0 ≤ (expFirst x).2 := by
  unfold expFirst
  split_ifs with h1 h2 <;> exact ⟨by omega, by norm_num [a0, a1]⟩

theorem expFactor_nonneg (xn an : Int) (han : 0 ≤ an) (st : Int × Int)
    (h1 : 0 ≤ st.1) (h2 : 0 ≤ st.2) :
    0 ≤ (expFactor xn an st).1 ∧ 0 ≤ (expFactor xn an st).2 := by
  unfold expFactor
  split_ifs with h
  · exact ⟨by omega, Int.tdiv_nonneg (mul_nonneg h2 han) (by norm_num [ONE_20])⟩
  · exact ⟨h1, h2⟩

theorem taylorInit_nonneg (x : Int) (hx : 0 ≤ x) :
    0 ≤ (taylorInit x).1 ∧ 0 ≤ (taylorInit x).2 :=
  ⟨hx, add_nonneg (by norm_num [ONE_20]) hx⟩

theorem taylorTerm_nonneg (x n : Int) (hx : 0 ≤ x) (hn : 0 ≤ n)
    (st : Int × Int) (h1 : 0 ≤ st.1) (h2 : 0 ≤ st.2) :
    0 ≤ (taylorTerm x n st).1 ∧ 0 ≤ (taylorTerm x n st).2 := by
  unfold taylorTerm
  have ht : 0 ≤ ((st.1 * x).tdiv ONE_20).tdiv n :=
    Int.tdiv_nonneg (Int.tdiv_nonneg (mul_nonneg h1 hx) (by norm_num [ONE_20])) hn
  exact ⟨ht, add_nonneg h2 ht⟩

theorem expPos_nonneg (x : Int) (hx : 0 ≤ x) : 0 ≤ expPos x := by
  have h20 : (0 : Int) ≤ ONE_20 := by norm_num [ONE_20]
  obtain ⟨hp1, hp2⟩ := expFirst_nonneg x hx
  have c2 := expFactor_nonneg x2 a2 (by norm_num [a2])
    ((expFirst x).1 * 100, ONE_20) (mul_nonneg hp1 (by norm_num)) h20
  have c3 := expFactor_nonneg x3 a3 (by norm_num [a3]) _ c2.1 c2.2
  have c4 := expFactor_nonneg x4 a4 (by norm_num [a4]) _ c3.1 c3.2
  have c5 := expFactor_nonneg x5 a5 (by norm_num [a5]) _ c4.1 c4.2
  have c6 := expFactor_nonneg x6 a6 (by norm_num [a6]) _ c5.1 c5.2
  have c7 := expFactor_nonneg x7 a7 (by norm_num [a7]) _ c6.1 c6.2
  have c8 := expFactor_nonneg x8 a8 (by norm_num [a8]) _ c7.1 c7.2
  have c9 := expFactor_nonneg x9 a9 (by norm_num [a9]) _ c8.1 c8.2
  have u0 := taylorInit_nonneg _ c9.1
  have u2 := taylorTerm_nonneg _ 2 c9.1 (by norm_num) _ u0.1 u0.2
  have u3 := taylorTerm_nonneg _ 3 c9.1 (by norm_num) _ u2.1 u2.2
  have u4 := taylorTerm_nonneg _ 4 c9.1 (by norm_num) _ u3.1 u3.2
  have u5 := taylorTerm_nonneg _ 5 c9.1 (by norm_num) _ u4.1 u4.2
  have u6 := taylorTerm_nonneg _ 6 c9.1 (by norm_num) _ u5.1 u5.2
  have u7 := taylorTerm_nonneg _ 7 c9.1 (by norm_num) _ u6.1 u6.2
  have u8 := taylorTerm_nonneg _ 8 c9.1 (by norm_num) _ u7.1 u7.2
  have u9 := taylorTerm_nonneg _ 9 c9.1 (by norm_num) _ u8.1 u8.2
  have u10 := taylorTerm_nonneg _ 10 c9.1 (by norm_num) _ u9.1 u9.2
  have u11 := taylorTerm_nonneg _ 11 c9.1 (by norm_num) _ u10.1 u10.2
  have u12 := taylorTerm_nonneg _ 12 c9.1 (by norm_num) _ u11.1 u11.2
  simp only [expPos]
  exact Int.tdiv_nonneg
    (mul_nonneg (Int.tdiv_nonneg (mul_nonneg c9.2 u12.2) h20) hp2)
    (by norm_num)

theorem exp_nonneg (x r : Int) (h : exp x = .ok r) : 0 ≤ r := by
  unfold exp jsDiv at h
  split_ifs at h
  all_goals cases h
  all_goals first
    | exact Int.tdiv_nonneg (by norm_num [ONE_18]) (expPos_nonneg _ (by omega))
    | exact expPos_nonneg _ (by omega)

theorem pow_nonneg (x y r : Int) (h : pow x y = .ok r) : 0 ≤ r := by
  simp only [pow] at h
  split_ifs at h with h1 h2 h3 h4 h5 h6 h7
  all_goals first
    | (cases h; norm_num [ONE_18, BZERO])
    | exact exp_nonneg _ _ h

end LogExpMath

/-- C4 (amended): for every `x`, `y` on which `pow` succeeds with value
`raw`, `powUpFixed(x, y)` returns `raw` plus the margin
`mulUp(raw, MAX_POW_RELATIVE_ERROR) + 1`, where the error multiple is
the round-UP fixed-point product (`(raw·ERR − 1)/ONE + 1` for a
nonzero product), not the truncating `raw·ERR/ONE`; in particular the
result is always strictly greater than `raw`. -/
theorem powUpFixed_margin (x y raw : Int) (h : LogExpMath.pow x y = .ok raw) :
    SolidityMaths.powUpFixed x y =
      .ok (raw + ((if raw * SolidityMaths.MAX_POW_RELATIVE_ERROR = 0 then 0
          else (raw * SolidityMaths.MAX_POW_RELATIVE_ERROR - 1).tdiv ONE + 1) + 1)) ∧
    (∀ res, SolidityMaths.powUpFixed x y = .ok res → raw < res) := by
  have hraw : 0 ≤ raw := LogExpMath.pow_nonneg x y raw h
  have hmain : SolidityMaths.powUpFixed x y =
      .ok (raw + ((if raw * SolidityMaths.MAX_POW_RELATIVE_ERROR = 0 then 0
          else (raw * SolidityMaths.MAX_POW_RELATIVE_ERROR - 1).tdiv ONE + 1) + 1)) := by
    simp only [SolidityMaths.powUpFixed, h, SolidityMaths.mulUpFixed_ok,
      SolidityMaths.add_ok, bind, Except.bind, BONE]
  refine ⟨hmain, ?_⟩
  intro res hres
  rw [hmain] at hres
  injection hres with hres
  subst hres
  have hprod : 0 ≤ raw * SolidityMaths.MAX_POW_RELATIVE_ERROR :=
    mul_nonneg hraw (by norm_num [SolidityMaths.MAX_POW_RELATIVE_ERROR])
  split_ifs with hz
  · omega
  · have ht : 0 ≤ (raw * SolidityMaths.MAX_POW_RELATIVE_ERROR - 1).tdiv ONE :=
      Int.tdiv_nonneg (by omega) (by norm_num [ONE])
    omega

/-- C4 counterexample: at `x = 2·10^18`, `y = 5·10^17` the raw power is
`1414213562373095047`, whose error product is not divisible by `ONE`;
`powUpFixed` returns one more than
`raw + raw·MAX_POW_RELATIVE_ERROR/ONE + 1` read with truncating
division, refuting the claimed margin formula. -/
theorem powUpFixed_margin_counterexample :
    LogExpMath.pow 2000000000000000000 500000000000000000 =
      .ok 1414213562373095047 ∧
    SolidityMaths.powUpFixed 2000000000000000000 500000000000000000 =
      .ok 1414213562373109191 ∧
    (1414213562373109191 : Int) ≠
      1414213562373095047 +
        (1414213562373095047 * SolidityMaths.MAX_POW_RELATIVE_ERROR).tdiv ONE + 1 := by
  refine ⟨by rfl, by rfl, by decide⟩

/-- Witness for the amended C4 at `x = 2·10^18`, `y = 5·10^17`. -/
theorem powUpFixed_margin_witness :
    SolidityMaths.powUpFixed 2000000000000000000 500000000000000000 =
      .ok (1414213562373095047 +
        ((if (1414213562373095047 : Int) * SolidityMaths.MAX_POW_RELATIVE_ERROR = 0
          then 0
          else ((1414213562373095047 : Int) *
            SolidityMaths.MAX_POW_RELATIVE_ERROR - 1).tdiv ONE + 1) + 1)) ∧
    (∀ res, SolidityMaths.powUpFixed 2000000000000000000 500000000000000000 =
      .ok res → 1414213562373095047 < res) :=
  powUpFixed_margin 2000000000000000000 500000000000000000 1414213562373095047 (by rfl)

theorem pdLoop_flags (n : Int) (ru : Bool) (inv : Int) :
    ∀ (bs : List Int) (pd p : Int) (fl : List Bool),
      pdLoop n ru inv bs pd = .ok (p, fl) → fl = List.replicate bs.length ru := by
  intro bs
  induction bs with
  | nil =>
    intro pd p fl h
    injection h with h'
    injection h' with h1 h2
    simp [← h2]
  | cons bj rest ih =>
    intro pd p fl h
    simp only [pdLoop, SolidityMaths.mul_ok, bind, Except.bind] at h
    rcases hdv : SolidityMaths.div (pd * bj * n) inv ru with e | v
    · simp only [hdv] at h; cases h
    · simp only [hdv] at h
      rcases hrec : pdLoop n ru inv rest v with e2 | pr
      · simp only [hrec] at h; cases h
      · simp only [hrec] at h
        obtain ⟨pv, flv⟩ := pr
        injection h with h'
        injection h' with h1 h2
        rw [← h2, List.length_cons, List.replicate_succ]
        exact congrArg (ru :: ·) (ih v pv flv hrec)

/-- C2 (amended): within one iteration of the stable invariant solver,
every `SolidityMaths.div` call uses the caller-supplied rounding
direction except exactly one — the denominator's amp-precision
division of `P_D`, which uses the opposite direction (`!roundUp`): the
recorded flag list is always
`replicate (numTokens − 1) roundUp ++ [roundUp, !roundUp, roundUp]`. -/
theorem invariantStep_rounding_flags (amp : Int) (balances : List Int)
    (sum : Int) (roundUp : Bool) (inv r : Int) (flags : List Bool)
    (h : invariantStepF amp balances sum roundUp inv = .ok (r, flags)) :
    flags = List.replicate (balances.length - 1) roundUp ++
      [roundUp, !roundUp, roundUp] := by
  simp only [invariantStepF, SolidityMaths.mul_ok, bind, Except.bind] at h
  rcases hpd : pdLoop (balances.length : Int) roundUp inv balances.tail
      (balances.headD 0 * (balances.length : Int)) with e | pr
  · simp only [hpd] at h; cases h
  · simp only [hpd] at h
    rcases h5 : SolidityMaths.div (amp * (balances.length : Int) * sum * pr.1)
        AMP_PRECISION roundUp with e | v5
    · simp only [h5] at h; cases h
    · simp only [h5] at h
      rcases h8 : SolidityMaths.div
          ((amp * (balances.length : Int) - AMP_PRECISION) * pr.1)
          AMP_PRECISION (!roundUp) with e | v8
      · simp only [h8] at h; cases h
      · simp only [h8] at h
        rcases h9 : SolidityMaths.div
            ((balances.length : Int) * inv * inv + v5)
            (((balances.length : Int) + 1) * inv + v8) roundUp with e | v9
        · simp only [h9] at h; cases h
        · simp only [h9] at h
          injection h with h'
          injection h' with h1 h2
          rw [← h2]
          have hfl := pdLoop_flags (balances.length : Int) roundUp inv
            balances.tail (balances.headD 0 * (balances.length : Int))
            pr.1 pr.2 (by rw [hpd])
          rw [hfl, List.length_tail]

/-- C2 counterexample: with `roundUp = true`, one iteration of the
solver on balances `[2·10^18, 10^18]` records the division flags
`[true, true, false, true]` — the denominator's amp-precision division
runs with `!roundUp`, so not every division uses the caller-supplied
direction. -/
theorem invariantStep_rounding_flags_counterexample :
    invariantStepF 100000 [2000000000000000000, 1000000000000000000]
      3000000000000000000 true 3000000000000000000 =
      .ok (2998147004323656579, [true, true, false, true]) ∧
    ¬ ∀ f ∈ [true, true, false, true], f = true :=
  ⟨by rfl, by decide⟩

/-- Witness for the amended C2 at the concrete solver input of the
counterexample. -/
theorem invariantStep_rounding_flags_witness :
    ([true, true, false, true] : List Bool) =
      List.replicate
        (([2000000000000000000, 1000000000000000000] : List Int).length - 1)
        true ++ [true, !true, true] :=
  invariantStep_rounding_flags 100000
    [2000000000000000000, 1000000000000000000] 3000000000000000000 true
    3000000000000000000 2998147004323656579 [true, true, false, true] (by rfl)

theorem invariantLoop_zero (amp : Int) (bs : List Int) (sum : Int) (ru : Bool)
    (d : Int) :
    invariantLoop amp bs sum ru 0 d = .error .stableInvariantDidntConverge := rfl

theorem invariantLoop_converged (amp : Int) (bs : List Int) (sum : Int)
    (ru : Bool) (fuel : Nat) (d d' : Int)
    (hs : invariantStep amp bs sum ru d = .ok d')
    (hc : convergedStep d d' = true) :
    invariantLoop amp bs sum ru (fuel + 1) d = .ok d' := by
  simp [invariantLoop, hs, hc, bind, Except.bind]

theorem invariantLoop_not_converged (amp : Int) (bs : List Int) (sum : Int)
    (ru : Bool) (fuel : Nat) (d d' : Int)
    (hs : invariantStep amp bs sum ru d = .ok d')
    (hc : convergedStep d d' = false) :
    invariantLoop amp bs sum ru (fuel + 1) d = invariantLoop amp bs sum ru fuel d' := by
  simp [invariantLoop, hs, hc, bind, Except.bind]

theorem invariantIterate_succ_ok (amp : Int) (bs : List Int) (sum : Int)
    (ru : Bool) (k : Nat) (d1 : Int)
    (h : invariantIterate amp bs sum ru (k + 1) = .ok d1) :
    ∃ d0, invariantIterate amp bs sum ru k = .ok d0 ∧
      invariantStep amp bs sum ru d0 = .ok d1 := by
  simp only [invariantIterate, bind, Except.bind] at h
  rcases hk : invariantIterate amp bs sum ru k with e | d0
  · simp only [hk] at h
    cases h
  · simp only [hk] at h
    exact ⟨d0, rfl, h⟩

theorem invariantLoop_shift (amp : Int) (bs : List Int) (sum : Int) (ru : Bool) :
    ∀ (k : Nat),
      (∀ j, j < k → ∀ dj dj1,
        invariantIterate amp bs sum ru j = .ok dj →
        invariantIterate amp bs sum ru (j + 1) = .ok dj1 →
        convergedStep dj dj1 = false) →
      ∀ dk, invariantIterate amp bs sum ru k = .ok dk →
      ∀ f, invariantLoop amp bs sum ru (k + f) sum =
        invariantLoop amp bs sum ru f dk := by
  intro k
  induction k with
  | zero =>
    intro _ dk h f
    simp only [invariantIterate] at h
    injection h with h'
    rw [← h', Nat.zero_add]
  | succ k ih =>
    intro hnc dk1 h f
    obtain ⟨dk, hk, hstep⟩ := invariantIterate_succ_ok amp bs sum ru k dk1 h
    have hshift := ih (fun j hj => hnc j (by omega)) dk hk (f + 1)
    have harith : k + 1 + f = k + (f + 1) := by omega
    rw [harith, hshift,
      invariantLoop_not_converged amp bs sum ru f dk dk1 hstep
        (hnc k (by omega) dk dk1 hk h)]

/-- C1: for every balance list with positive sum `S`, every `amp` and
either rounding flag, the invariant solver starts its iteration at
`D = S` (`invariantIterate _ _ S _ 0 = S`); it returns the current
iterate at the first step index `k` (within the 255-iteration budget)
where two consecutive iterates differ by at most 1 raw unit; and when
no two consecutive iterates within the budget are that close, it fails
with `StableInvariantDidntConverge`. -/
theorem calculateInvariant_loop_spec (amp : Int) (balances : List Int)
    (roundUp : Bool) (S : Int)
    (hS : balances.foldl (· + ·) BZERO = S) (hpos : 0 < S) :
    (invariantIterate amp balances S roundUp 0 = .ok S) ∧
    (∀ k, k < 255 → ∀ dk dk1,
      invariantIterate amp balances S roundUp k = .ok dk →
      invariantIterate amp balances S roundUp (k + 1) = .ok dk1 →
      (∀ j, j < k → ∀ dj dj1,
        invariantIterate amp balances S roundUp j = .ok dj →
        invariantIterate amp balances S roundUp (j + 1) = .ok dj1 →
        convergedStep dj dj1 = false) →
      convergedStep dk dk1 = true →
      _calculateInvariant amp balances roundUp = .ok dk1) ∧
    ((∀ j, j < 255 → ∀ dj dj1,
        invariantIterate amp balances S roundUp j = .ok dj →
        invariantIterate amp balances S roundUp (j + 1) = .ok dj1 →
        convergedStep dj dj1 = false) →
      ∀ d255, invariantIterate amp balances S roundUp 255 = .ok d255 →
      _calculateInvariant amp balances roundUp =
        .error .stableInvariantDidntConverge) := by
  have hcalc : _calculateInvariant amp balances roundUp =
      invariantLoop amp balances S roundUp 255 S := by
    simp only [_calculateInvariant, hS]
    rw [if_neg (by simp only [BZERO]; omega)]
  refine ⟨rfl, ?_, ?_⟩
  · intro k hk dk dk1 hIk hIk1 hnc hconv
    obtain ⟨d0, hd0, hstep⟩ :=
      invariantIterate_succ_ok amp balances S roundUp k dk1 hIk1
    have hd0k : d0 = dk := by
      rw [hIk] at hd0
      injection hd0 with h'
      exact h'.symm
    subst hd0k
    have h255 : (255 : Nat) = k + (255 - k - 1 + 1) := by omega
    rw [hcalc, h255,
      invariantLoop_shift amp balances S roundUp k hnc d0 hIk (255 - k - 1 + 1),
      invariantLoop_converged amp balances S roundUp (255 - k - 1) d0 dk1
        hstep hconv]
  · intro hnc d255 hI255
    have h255 : (255 : Nat) = 255 + 0 := by omega
    rw [hcalc, h255,
      invariantLoop_shift amp balances S roundUp 255 hnc d255 hI255 0,
      invariantLoop_zero]

/-- Witness for C1: on balances `[2·10^18, 10^18]` with `amp = 100000`
(precision-scaled 100) and rounding up, the first three updates move by
more than one unit, the fourth moves by zero, and the solver therefore
returns the fourth iterate. -/
theorem calculateInvariant_loop_spec_witness :
    _calculateInvariant 100000 [2000000000000000000, 1000000000000000000] true =
      .ok 2998146985239894577 := by
  have hnc : ∀ j, j < 3 → ∀ dj dj1,
      invariantIterate 100000 [2000000000000000000, 1000000000000000000]
        3000000000000000000 true j = .ok dj →
      invariantIterate 100000 [2000000000000000000, 1000000000000000000]
        3000000000000000000 true (j + 1) = .ok dj1 →
      convergedStep dj dj1 = false := by
    intro j hj dj dj1 h1 h2
    interval_cases j
    · rw [show invariantIterate 100000
          [2000000000000000000, 1000000000000000000] 3000000000000000000 true 0 =
          .ok 3000000000000000000 from rfl] at h1
      rw [show invariantIterate 100000
          [2000000000000000000, 1000000000000000000] 3000000000000000000 true 1 =
          .ok 2998147004323656579 from rfl] at h2
      injection h1 with e1
      injection h2 with e2
      subst e1; subst e2
      rfl
    · rw [show invariantIterate 100000
          [2000000000000000000, 1000000000000000000] 3000000000000000000 true 1 =
          .ok 2998147004323656579 from rfl] at h1
      rw [show invariantIterate 100000
          [2000000000000000000, 1000000000000000000] 3000000000000000000 true 2 =
          .ok 2998146985239894579 from rfl] at h2
      injection h1 with e1
      injection h2 with e2
      subst e1; subst e2
      rfl
    · rw [show invariantIterate 100000
          [2000000000000000000, 1000000000000000000] 3000000000000000000 true 2 =
          .ok 2998146985239894579 from rfl] at h1
      rw [show invariantIterate 100000
          [2000000000000000000, 1000000000000000000] 3000000000000000000 true 3 =
          .ok 2998146985239894577 from rfl] at h2
      injection h1 with e1
      injection h2 with e2
      subst e1; subst e2
      rfl
  exact (calculateInvariant_loop_spec 100000
      [2000000000000000000, 1000000000000000000] true 3000000000000000000
      (by rfl) (by decide)).2.1 3 (by omega)
      2998146985239894577 2998146985239894577 (by rfl) (by rfl) hnc (by rfl)

/-- C3: on stable, meta-stable and phantom-stable pool snapshots whose
`amp` field is absent (with decimals and price rates present and
lengths matching), `bptZeroPriceImpact` fails with
`MISSING_PRICE_RATE`, which is a different error kind from the
`MISSING_AMP` the specification names for this condition. -/
theorem bptZeroPriceImpact_missing_amp_uses_price_rate_error :
    stableBptZeroPriceImpact
      { address := 99
        tokens := [{ address := 1, decimals := some 18,
                     balance := 1000000000000000000, priceRate := none },
                   { address := 2, decimals := some 18,
                     balance := 1000000000000000000, priceRate := none }]
        tokensList := [1, 2]
        amp := none
        totalShares := 2000000000000000000 }
      [1000000000000000000, 1000000000000000000] =
      .error .missingPriceRate ∧
    metaStableBptZeroPriceImpact
      { address := 99
        tokens := [{ address := 1, decimals := some 18,
                     balance := 1000000000000000000,
                     priceRate := some 1000000000000000000 },
                   { address := 2, decimals := some 18,
                     balance := 1000000000000000000,
                     priceRate := some 1000000000000000000 }]
        tokensList := [1, 2]
        amp := none
        totalShares := 2000000000000000000 }
      [1000000000000000000, 1000000000000000000] =
      .error .missingPriceRate ∧
    phantomBptZeroPriceImpact
      { address := 99
        tokens := [{ address := 1, decimals := some 18,
                     balance := 1000000000000000000,
                     priceRate := some 1000000000000000000 },
                   { address := 2, decimals := some 18,
                     balance := 1000000000000000000,
                     priceRate := some 1000000000000000000 },
                   { address := 99, decimals := some 18,
                     balance := 5000000000000000000,
                     priceRate := some 1000000000000000000 }]
        tokensList := [1, 2, 99]
        amp := none
        totalShares := 2000000000000000000 }
      [1000000000000000000, 1000000000000000000] =
      .error .missingPriceRate ∧
    BalError.missingPriceRate ≠ BalError.missingAmp :=
  ⟨by rfl, by rfl, by rfl, by decide⟩

theorem map_set_eq_of_agree {α β : Type} (f : α → β) :
    ∀ (l : List α) (k : Nat) (a : α) (hk : k < l.length),
      f a = f (l[k]) → (l.set k a).map f = l.map f := by
  intro l
  induction l with
  | nil => intro k a hk _; simp at hk
  | cons x xs ih =>
    intro k a hk hf
    cases k with
    | zero =>
      simp only [List.getElem_cons_zero] at hf
      simp [hf]
    | succ k =>
      simp only [List.getElem_cons_succ] at hf
      simp only [List.set_cons_succ, List.map_cons]
      rw [ih k a (by simpa using hk) hf]

theorem requireAll_length (e : BalError) :
    ∀ (l : List (Option Int)) (out : List Int),
      requireAll e l = .ok out → out.length = l.length := by
  intro l
  induction l with
  | nil =>
    intro out h
    injection h with h'
    rw [← h']
    rfl
  | cons x xs ih =>
    intro out h
    cases x with
    | none =>
      simp only [requireAll] at h
      cases h
    | some v =>
      simp only [requireAll, bind, Except.bind] at h
      rcases hr : requireAll e xs with e2 | r
      · simp only [hr] at h
        cases h
      · simp only [hr] at h
        injection h with h'
        rw [← h']
        simp [ih r hr]

theorem mapM_ok_length (f : Int → Except BalError Int) :
    ∀ (l out : List Int), l.mapM f = .ok out → out.length = l.length := by
  intro l
  induction l with
  | nil =>
    intro out h
    rw [List.mapM_nil] at h
    injection h with h'
    rw [← h']
  | cons x xs ih =>
    intro out h
    rw [List.mapM_cons] at h
    rcases hx : f x with e | v
    · simp only [hx, bind, Except.bind] at h
      cases h
    · simp only [hx, bind, Except.bind] at h
      rcases hr : xs.mapM f with e2 | r
      · simp only [hr] at h
        cases h
      · simp only [hr, pure, Except.pure] at h
        injection h with h'
        rw [← h']
        simp [ih r hr]

theorem mapM_upscale_ok : ∀ (ps : List (Int × Int)),
    ps.mapM (fun p => _upscale p.1 p.2) =
      .ok (ps.map (fun p => (p.1 * p.2).tdiv ONE)) := by
  intro ps
  induction ps with
  | nil => rw [List.mapM_nil]; rfl
  | cons p ps ih =>
    rw [List.mapM_cons, ih]
    simp only [_upscale, SolidityMaths.mulDownFixed_ok, bind, Except.bind,
      pure, Except.pure, List.map_cons]

theorem zip_set_left : ∀ (bs sfs : List Int) (k : Nat) (v : Int),
    k < bs.length → k < sfs.length →
    (bs.set k v).zip sfs = (bs.zip sfs).set k (v, sfs.getD k 0) := by
  intro bs
  induction bs with
  | nil => intro sfs k v hk _; simp at hk
  | cons b bs ih =>
    intro sfs k v hk hks
    cases sfs with
    | nil => simp at hks
    | cons s sfs =>
      cases k with
      | zero => simp [List.zip_cons_cons]
      | succ k =>
        simp only [List.set_cons_succ, List.zip_cons_cons, List.getD_cons_succ]
        rw [ih sfs k v (by simpa using hk) (by simpa using hks)]

theorem take_set_self {α : Type} : ∀ (l : List α) (k : Nat) (x : α),
    (l.set k x).take k = l.take k := by
  intro l
  induction l with
  | nil => intro k x; rfl
  | cons a l ih =>
    intro k x
    cases k with
    | zero => rfl
    | succ k =>
      simp only [List.set_cons_succ, List.take_succ_cons]
      rw [ih]

theorem drop_set_succ_self {α : Type} : ∀ (l : List α) (k : Nat) (x : α),
    (l.set k x).drop (k + 1) = l.drop (k + 1) := by
  intro l
  induction l with
  | nil => intro k x; rfl
  | cons a l ih =>
    intro k x
    cases k with
    | zero => rfl
    | succ k =>
      simp only [List.set_cons_succ, List.drop_succ_cons]
      exact ih k x

theorem jsSpliceRemove_nat {α : Type} (l : List α) (k : Nat) (hk : k ≤ l.length) :
    jsSpliceRemove l (k : Int) = l.take k ++ l.drop (k + 1) := by
  simp only [jsSpliceRemove]
  rw [if_neg (show ¬((k : Int) < 0) by omega)]
  have hmin : ((k : Int) ⊓ (l.length : Int)) = (k : Int) := by omega
  rw [hmin]
  simp

theorem jsSpliceRemove_set_self {α : Type} (l : List α) (k : Nat) (x : α)
    (hk : k < l.length) :
    jsSpliceRemove (l.set k x) (k : Int) = jsSpliceRemove l (k : Int) := by
  rw [jsSpliceRemove_nat (l.set k x) k (by rw [List.length_set]; omega),
    jsSpliceRemove_nat l k (by omega), take_set_self, drop_set_succ_self]

/-- C7: phantom-stable `bptZeroPriceImpact` (i) requires the amounts
array length to equal the pool's token count excluding the pool's own
BPT token and fails with `InputLengthMismatch` on any mismatch, and
(ii) removes the pool's own BPT balance from the balance list before
the invariant and spot-price math runs: replacing the BPT token entry
by one carrying any other balance (all other fields unchanged) never
changes the result. -/
theorem phantom_length_and_bpt_exclusion :
    (∀ (pool : Pool) (tokenAmounts : List Int),
      (tokenAmounts.length : Int) ≠ (pool.tokensList.length : Int) - 1 →
      phantomBptZeroPriceImpact pool tokenAmounts =
        .error .inputLengthMismatch) ∧
    (∀ (p : Pool) (k : Nat) (t' : PoolToken) (amounts : List Int)
      (hk : k < p.tokens.length),
      jsFindIndex (fun token => token = p.address) p.tokensList = (k : Int) →
      t'.decimals = p.tokens[k].decimals →
      t'.priceRate = p.tokens[k].priceRate →
      phantomBptZeroPriceImpact { p with tokens := p.tokens.set k t' } amounts =
        phantomBptZeroPriceImpact p amounts) := by
  constructor
  · intro pool amounts hmis
    simp only [phantomBptZeroPriceImpact]
    rw [if_pos hmis]
  · intro p k t' amounts hk hfind hdec hrate
    have hd : (p.tokens.set k t').map (fun t =>
        match t.decimals with
        | some d => if d = 0 then none else some d
        | none => none) = p.tokens.map (fun t =>
        match t.decimals with
        | some d => if d = 0 then none else some d
        | none => none) :=
      map_set_eq_of_agree _ p.tokens k t' hk (by rw [hdec])
    have hr : (p.tokens.set k t').map (fun t => t.priceRate) =
        p.tokens.map (fun t => t.priceRate) :=
      map_set_eq_of_agree _ p.tokens k t' hk (by rw [hrate])
    have hb : (p.tokens.set k t').map (fun t => t.balance) =
        (p.tokens.map (fun t => t.balance)).set k t'.balance :=
      List.map_set
    simp only [phantomBptZeroPriceImpact, parsePoolInfo]
    rw [hd, hr, hb, hfind]
    rcases hD : requireAll .missingDecimals (p.tokens.map (fun t =>
        match t.decimals with
        | some d => if d = 0 then none else some d
        | none => none)) with e | decs
    · simp only [hD, bind, Except.bind]
    · simp only [hD, bind, Except.bind]
      rcases hR : requireAll .missingPriceRate
          (p.tokens.map (fun t => t.priceRate)) with e | rates
      · simp only [hR]
      · simp only [hR]
        rcases hA : p.amp with _ | ampv
        · simp only [hA]
        · simp only [hA]
          rcases hSF : decs.mapM _computeScalingFactor with e | sfs
          · simp only [hSF]
          · simp only [hSF]
            have hlen_decs : decs.length = p.tokens.length := by
              have := requireAll_length .missingDecimals _ decs hD
              simpa using this
            have hlen_sfs : sfs.length = decs.length :=
              mapM_ok_length _computeScalingFactor decs sfs hSF
            rw [zip_set_left (p.tokens.map (fun t => t.balance)) sfs k
              t'.balance (by simp only [List.length_map]; omega) (by omega)]
            simp only [mapM_upscale_ok, List.map_set, bind, Except.bind]
            rw [jsSpliceRemove_set_self _ k _
              (by simp only [List.length_map, List.length_zip,
                List.length_map]; omega)]

/-- Witness for C7: a three-token phantom pool (BPT at index 2) rejects
a one-element amounts array, and changing the stored BPT balance from
`5·10^18` to `777` leaves the result unchanged. -/
theorem phantom_length_and_bpt_exclusion_witness :
    phantomBptZeroPriceImpact
      { address := 99
        tokens := [{ address := 1, decimals := some 18,
                     balance := 1000000000000000000,
                     priceRate := some 1000000000000000000 },
                   { address := 2, decimals := some 18,
                     balance := 2000000000000000000,
                     priceRate := some 1000000000000000000 },
                   { address := 99, decimals := some 18,
                     balance := 5000000000000000000,
                     priceRate := some 1000000000000000000 }]
        tokensList := [1, 2, 99]
        amp := some 100000
        totalShares := 2000000000000000000 }
      [5] = .error .inputLengthMismatch ∧
    phantomBptZeroPriceImpact
      { address := 99
        tokens := [{ address := 1, decimals := some 18,
                     balance := 1000000000000000000,
                     priceRate := some 1000000000000000000 },
                   { address := 2, decimals := some 18,
                     balance := 2000000000000000000,
                     priceRate := some 1000000000000000000 },
                   { address := 99, decimals := some 18,
                     balance := 5000000000000000000,
                     priceRate := some 1000000000000000000 }].set 2
                  { address := 99, decimals := some 18,
                    balance := 777,
                    priceRate := some 1000000000000000000 }
        tokensList := [1, 2, 99]
        amp := some 100000
        totalShares := 2000000000000000000 }
      [1000000000000000000, 1000000000000000000] =
    phantomBptZeroPriceImpact
      { address := 99
        tokens := [{ address := 1, decimals := some 18,
                     balance := 1000000000000000000,
                     priceRate := some 1000000000000000000 },
                   { address := 2, decimals := some 18,
                     balance := 2000000000000000000,
                     priceRate := some 1000000000000000000 },
                   { address := 99, decimals := some 18,
                     balance := 5000000000000000000,
                     priceRate := some 1000000000000000000 }]
        tokensList := [1, 2, 99]
        amp := some 100000
        totalShares := 2000000000000000000 }
      [1000000000000000000, 1000000000000000000] :=
  ⟨phantom_length_and_bpt_exclusion.1 _ [5] (by decide),
   phantom_length_and_bpt_exclusion.2
     { address := 99
       tokens := [{ address := 1, decimals := some 18,
                    balance := 1000000000000000000,
                    priceRate := some 1000000000000000000 },
                  { address := 2, decimals := some 18,
                    balance := 2000000000000000000,
                    priceRate := some 1000000000000000000 },
                  { address := 99, decimals := some 18,
                    balance := 5000000000000000000,
                    priceRate := some 1000000000000000000 }]
       tokensList := [1, 2, 99]
       amp := some 100000
       totalShares := 2000000000000000000 }
     2
     { address := 99, decimals := some 18, balance := 777,
       priceRate := some 1000000000000000000 }
     [1000000000000000000, 1000000000000000000] (by decide) (by rfl)
     (by rfl) (by rfl)⟩
